import Mathlib

/-!
Verification of `snapcraft/providers/_provider.py` (the `Provider` abstract
base class): instance naming, command-environment construction, base
compatibility, clean-up orchestration and the scoped-launch contract.

External collaborators (the craft_providers backend, the host process
environment, the filesystem) are parameters of the embedding: the backend
default command environment and the host `os.environ` are arbitrary
mappings, and a `pathlib.Path` enters the modelled functions only through
the outcome of its `stat()` call.
-/

namespace SnapcraftProvider

/-- Result type of `Provider.get_command_environment`: a Python
`Dict[str, Optional[str]]`, modelled as a map from variable names to
optional values, where `none` means the key is absent from the dict and
`some v` means the key is present bound to `v : Option String`
(Python value `None` or a string). -/
abbrev EnvMap : Type := String → Option (Option String)

/-- Python dict assignment `env[k] = v`: rebind one key. -/
def setEnv (m : EnvMap) (k : String) (v : Option String) : EnvMap :=
  fun q => if q = k then some v else m q

/-- The fixed pass-through list of host environment variables in
`Provider.get_command_environment` (source lines 91-99). -/
def passthrough_keys : List String :=
  ["http_proxy", "https_proxy", "no_proxy",
   "SNAPCRAFT_ENABLE_EXPERIMENTAL_EXTENSIONS", "SNAPCRAFT_BUILD_FOR",
   "SNAPCRAFT_BUILD_INFO", "SNAPCRAFT_IMAGE_INFO"]

/-- Python truthiness of an `Optional[str]` argument: `None` and the
empty string are falsy, every other string is truthy. -/
def truthyStr : Option String → Bool
  | none => false
  | some s => !(s == "")

/-- Body of the pass-through `for` loop of `get_command_environment`:
copy `env_key` from the host environment into `e` when the host defines
it (`if env_key in os.environ: env[env_key] = os.environ[env_key]`). -/
def passStep (os_environ : String → Option String) (e : EnvMap)
    (env_key : String) : EnvMap :=
  match os_environ env_key with
  | some v => setEnv e env_key (some v)
  | none => e

/-- Embedding of `Provider.get_command_environment`.
`default_env` models the external
`craft_providers.bases.buildd.default_command_environment()` result and
`os_environ` models the host process environment `os.environ`.
Steps, as in the source: start from the backend default, force
`SNAPCRAFT_MANAGED_MODE` to `"1"`, copy each pass-through key from the
host when the host defines it, then let a truthy `http_proxy` /
`https_proxy` argument overwrite the corresponding key. -/
def get_command_environment (default_env : EnvMap)
    (os_environ : String → Option String)
    (http_proxy https_proxy : Option String) : EnvMap :=
  let env := setEnv default_env "SNAPCRAFT_MANAGED_MODE" (some "1")
  let env := passthrough_keys.foldl (passStep os_environ) env
  let env := if truthyStr http_proxy then setEnv env "http_proxy" http_proxy else env
  let env := if truthyStr https_proxy then setEnv env "https_proxy" https_proxy else env
  env

/-- Quote character CPython `repr` chooses for a string: a single quote,
unless the string contains a single quote but no double quote, in which
case a double quote. -/
def pyQuoteChar (s : String) : Char :=
  if s.data.contains '\x27' && !(s.data.contains '"') then '"' else '\x27'

/-- CPython `repr` escaping of one character under the chosen quote `q`:
the backslash and `q` itself are backslash-escaped; tab, newline and
carriage return use their mnemonic escapes; the remaining non-printable
Latin-1 characters (C0 controls, DEL, C1 controls, NBSP, soft hyphen)
become lowercase `\xHH`. Characters above U+00FF are kept verbatim;
CPython additionally hex-escapes those whose Unicode category is
non-printable (format, separator, unassigned, private use), a
Unicode-table lookup that is not modelled — no claim or counterexample
evaluates such a base. -/
def pyEscapeChar (q c : Char) : List Char :=
  if c = '\\' then ['\\', '\\']
  else if c = q then ['\\', q]
  else if c = '\t' then ['\\', 't']
  else if c = '\n' then ['\\', 'n']
  else if c = '\r' then ['\\', 'r']
  else if c.toNat < 0x20 ∨ c.toNat = 0x7f ∨ (0x80 ≤ c.toNat ∧ c.toNat ≤ 0xa0) ∨
      c.toNat = 0xad then
    ['\\', 'x', Nat.digitChar (c.toNat / 16), Nat.digitChar (c.toNat % 16)]
  else [c]

/-- Python `repr` of a string, as produced by the `{base!r}` conversion
in the source's f-string: the chosen quote around the concatenation of
the per-character escapes. -/
def pyReprStr (s : String) : String :=
  let q := pyQuoteChar s
  String.mk (q :: ((s.data.map (pyEscapeChar q)).flatten ++ [q]))

/-- Characters `repr` keeps verbatim inside single quotes: printable
ASCII other than the single quote and the backslash. -/
def pyPlainChar (c : Char) : Prop :=
  0x20 ≤ c.toNat ∧ c.toNat ≤ 0x7e ∧ c ≠ '\x27' ∧ c ≠ '\\'

instance (c : Char) : Decidable (pyPlainChar c) := by
  unfold pyPlainChar
  exact inferInstance

/-- Embedding of `Provider.is_base_available` (source lines 142-157). -/
def is_base_available (base : String) : Bool × Option String :=
  if base ∉ ["ubuntu:18.04", "ubuntu:20.04"] then
    (false,
     some ("Base " ++ pyReprStr base ++
       " is not supported (must be \x27ubuntu:18.04\x27 or \x27ubuntu:20.04\x27)"))
  else (true, none)

/-- Failure of the `project_path.stat()` inode lookup (Python `OSError`). -/
inductive FsError where
  | statFailure
deriving DecidableEq, Repr

/-- The joined name `"-".join([...])` computed by
`Provider.get_instance_name` once the inode `ino` of the project path is
known. -/
def instance_name (project_name build_on build_for : String) (ino : Nat) : String :=
  String.intercalate "-"
    ["snapcraft", project_name, "on", build_on, "for", build_for, Nat.repr ino]

/-- Embedding of `Provider.get_instance_name` (source lines 113-140). The
`pathlib.Path` argument enters the function only through
`project_path.stat().st_ino`, modelled as the stat outcome `stat_ino`
(`none` means the lookup raises `OSError`, which propagates). -/
def get_instance_name (project_name : String) (stat_ino : Option Nat)
    (build_on build_for : String) : Except FsError String :=
  match stat_ino with
  | none => Except.error FsError.statFailure
  | some ino => Except.ok (instance_name project_name build_on build_for ino)

/-- Numeric value of a decimal digit character. -/
def decDigitVal (c : Char) : Nat := c.toNat - 48

/-- Value of a list of decimal digit characters read most-significant
first, as in the decimal notation produced by `str(int)` / `Nat.repr`. -/
def decParse (cs : List Char) : Nat :=
  cs.foldl (fun a c => a * 10 + decDigitVal c) 0

/-- One observable call made against the backend or the filesystem during
an operation, recorded in order. -/
inductive Call where
  | statIno : Call
  | createEnvironment : String → Call
  | existsCheck : String → Call
  | delete : String → Call
  | launch : String → Call
  | mountSsh : Call
  | execCmd : String → Call
  | unmountAll : Call
  | stop : Call
deriving DecidableEq, Repr

/-- True exactly on `Call.delete` entries of a trace. -/
def Call.isDelete : Call → Bool
  | Call.delete _ => true
  | _ => false

/-- Backend state visible to `clean_project_environments`: which
instance names currently have an existing environment. -/
structure BackendState where
  envPresent : String → Bool

/-- Embedding of `Provider.clean_project_environments` (source lines
34-66). `available` is the result of the abstract
`is_provider_available()`; `stat_ino` is the outcome of the
`project_path.stat().st_ino` lookup inside `get_instance_name`.
Returns the Python outcome (normal return or propagated `OSError`), the
ordered trace of backend/filesystem calls, and the backend state after
the operation; `environment.delete()` removes the instance from the
backend state. -/
def clean_project_environments (available : Bool) (project_name : String)
    (stat_ino : Option Nat) (build_on build_for : String)
    (st : BackendState) : Except FsError Unit × List Call × BackendState :=
  if !available then
    (Except.ok (), [], st)
  else
    match get_instance_name project_name stat_ino build_on build_for with
    | Except.error e => (Except.error e, [Call.statIno], st)
    | Except.ok name =>
      if st.envPresent name then
        (Except.ok (),
         [Call.statIno, Call.createEnvironment name, Call.existsCheck name,
          Call.delete name],
         ⟨fun n => if n = name then false else st.envPresent n⟩)
      else
        (Except.ok (),
         [Call.statIno, Call.createEnvironment name, Call.existsCheck name],
         st)

/-- How the caller's body inside the `launched_environment` scope ends:
a normal return or an exception that must propagate. -/
inductive BodyOutcome where
  | normal
  | raised (msg : String)
deriving DecidableEq, Repr

/-- Modelled from the spec: `Provider.launched_environment` is declared
abstract in `_provider.py` (source lines 176-201); the concrete
backends implementing it are outside `src/`. Per the spec's
scoped-resource contract: on entry the environment is created,
configured and started (and the host ssh directory mounted when
`bind_ssh` is true), the live handle is yielded to the caller's body,
and on every exit path the mounts are unmounted and the environment is
stopped — never deleted — before the body's outcome propagates. -/
def launched_environment (name : String) (bind_ssh : Bool)
    (bodyTrace : List Call) (outcome : BodyOutcome) : List Call × BodyOutcome :=
  let entry := Call.launch name :: (if bind_ssh then [Call.mountSsh] else [])
  (entry ++ bodyTrace ++ [Call.unmountAll, Call.stop], outcome)

/-- Lifecycle states of one environment instance, as in the spec's state
machine (spec section 4). -/
inductive EnvState where
  | absent
  | created
  | launchedState
  | stopped
deriving DecidableEq, Repr

/-- Effect of one call on the lifecycle state of the instance named
`name`, per the spec's state machine; calls about other instances and
non-lifecycle calls leave the state unchanged. -/
def stepCall (name : String) (s : EnvState) : Call → EnvState
  | Call.launch n => if n = name then EnvState.launchedState else s
  | Call.stop => EnvState.stopped
  | Call.delete n => if n = name then EnvState.absent else s
  | _ => s

/-- Run a trace of calls from a starting lifecycle state. -/
def runTrace (name : String) (s : EnvState) (trace : List Call) : EnvState :=
  trace.foldl (stepCall name) s

/-- A body trace that only uses the environment (mounts, command
execution) and performs no lifecycle transition of its own. -/
def nonLifecycle : Call → Bool
  | Call.launch _ => false
  | Call.stop => false
  | Call.delete _ => false
  | _ => true

/-! Helper lemmas about the decimal representation `Nat.repr` used in
instance names, about the pass-through fold of
`get_command_environment`, and about traces. -/

theorem toDigitsCore_append (fuel n : Nat) (ds : List Char) :
    Nat.toDigitsCore 10 fuel n ds = Nat.toDigitsCore 10 fuel n [] ++ ds := by
  induction fuel generalizing n ds with
  | zero => simp [Nat.toDigitsCore]
  | succ f ih =>
    simp only [Nat.toDigitsCore]
    by_cases h : n / 10 = 0
    · simp [h]
    · simp only [h, if_false]
      rw [ih (n/10) (Nat.digitChar (n % 10) :: ds), ih (n/10) [Nat.digitChar (n % 10)]]
      simp

theorem decDigitVal_digitChar {m : Nat} (h : m < 10) :
    decDigitVal (Nat.digitChar m) = m := by
  interval_cases m <;> rfl

theorem decParse_toDigitsCore (fuel : Nat) :
    ∀ n : Nat, n < 10 ^ fuel → decParse (Nat.toDigitsCore 10 fuel n []) = n := by
  induction fuel with
  | zero =>
    intro n hn
    have : n = 0 := by omega
    subst this
    rfl
  | succ f ih =>
    intro n hn
    simp only [Nat.toDigitsCore]
    by_cases h : n / 10 = 0
    · have hlt : n < 10 := by omega
      have hmod : n % 10 = n := Nat.mod_eq_of_lt hlt
      simp [h, decParse, hmod, decDigitVal_digitChar hlt]
    · simp only [h, if_false]
      rw [toDigitsCore_append]
      rw [Nat.pow_succ] at hn
      have hdiv : n / 10 < 10 ^ f := (Nat.div_lt_iff_lt_mul (by norm_num)).mpr hn
      have hmod : n % 10 < 10 := Nat.mod_lt n (by norm_num)
      simp only [decParse, List.foldl_append]
      have hx := ih (n / 10) hdiv
      simp only [decParse] at hx
      simp only [hx, List.foldl_cons, List.foldl_nil, decDigitVal_digitChar hmod]
      omega

theorem decParse_toDigits (n : Nat) : decParse (Nat.toDigits 10 n) = n :=
  decParse_toDigitsCore (n+1) n
    (lt_of_lt_of_le (Nat.lt_pow_self (by norm_num) n)
      (Nat.pow_le_pow_right (by norm_num) (Nat.le_succ n)))

theorem natRepr_inj {m n : Nat} (h : Nat.repr m = Nat.repr n) : m = n := by
  have hd : Nat.toDigits 10 m = Nat.toDigits 10 n := congrArg String.data h
  calc m = decParse (Nat.toDigits 10 m) := (decParse_toDigits m).symm
    _ = decParse (Nat.toDigits 10 n) := by rw [hd]
    _ = n := decParse_toDigits n

theorem digitChar_isDigit {m : Nat} (h : m < 10) :
    (Nat.digitChar m).isDigit = true := by
  interval_cases m <;> decide

theorem toDigitsCore_all_digits (fuel : Nat) :
    ∀ (n : Nat) (ds : List Char), (∀ c ∈ ds, c.isDigit = true) →
      ∀ c ∈ Nat.toDigitsCore 10 fuel n ds, c.isDigit = true := by
  induction fuel with
  | zero => intro n ds hds; simpa [Nat.toDigitsCore] using hds
  | succ f ih =>
    intro n ds hds
    simp only [Nat.toDigitsCore]
    have hmod : n % 10 < 10 := Nat.mod_lt n (by norm_num)
    by_cases h : n / 10 = 0
    · simp only [h, if_true]
      intro c hc
      rcases List.mem_cons.mp hc with h1 | h2
      · rw [h1]; exact digitChar_isDigit hmod
      · exact hds c h2
    · simp only [h, if_false]
      apply ih
      intro c hc
      rcases List.mem_cons.mp hc with h1 | h2
      · rw [h1]; exact digitChar_isDigit hmod
      · exact hds c h2

theorem natRepr_all_digits (n : Nat) : ∀ c ∈ (Nat.repr n).data, c.isDigit = true := by
  intro c hc
  exact toDigitsCore_all_digits (n+1) n [] (by intro c hc; cases hc) c hc

theorem pyEscapeChar_plain {c : Char} (h : pyPlainChar c) :
    pyEscapeChar '\x27' c = [c] := by
  obtain ⟨h1, h2, h3, h4⟩ := h
  unfold pyEscapeChar
  rw [if_neg h4, if_neg h3, if_neg, if_neg, if_neg, if_neg]
  · rintro (hc | hc | ⟨hc, _⟩ | hc) <;> omega
  · intro hc; subst hc; exact absurd h1 (by decide)
  · intro hc; subst hc; exact absurd h1 (by decide)
  · intro hc; subst hc; exact absurd h1 (by decide)

theorem contains_eq_false_of_not_mem {l : List Char} {a : Char}
    (h : ∀ c ∈ l, c ≠ a) : l.contains a = false := by
  induction l with
  | nil => rfl
  | cons c t ih =>
    simp only [List.contains_cons, Bool.or_eq_false_iff]
    constructor
    · exact beq_eq_false_iff_ne.mpr (Ne.symm (h c (List.mem_cons_self c t)))
    · exact ih (fun c hc => h c (List.mem_cons_of_mem _ hc))

theorem pyQuoteChar_plain {s : String} (h : ∀ c ∈ s.data, pyPlainChar c) :
    pyQuoteChar s = '\x27' := by
  unfold pyQuoteChar
  rw [if_neg]
  intro hcond
  rw [Bool.and_eq_true] at hcond
  have hfalse := contains_eq_false_of_not_mem (a := '\x27')
    (fun c hc => (h c hc).2.2.1)
  rw [hfalse] at hcond
  exact absurd hcond.1 (by decide)

theorem pyReprStr_plain {s : String} (h : ∀ c ∈ s.data, pyPlainChar c) :
    pyReprStr s = "\x27" ++ s ++ "\x27" := by
  have hq := pyQuoteChar_plain h
  have hmap : ∀ l : List Char, (∀ c ∈ l, pyPlainChar c) →
      (l.map (pyEscapeChar '\x27')).flatten = l := by
    intro l
    induction l with
    | nil => intro _; rfl
    | cons c t ih =>
      intro hl
      simp only [List.map_cons, List.flatten_cons,
        pyEscapeChar_plain (hl c (List.mem_cons_self c t)),
        ih (fun c hc => hl c (List.mem_cons_of_mem _ hc)), List.singleton_append]
  unfold pyReprStr
  rw [hq]
  show String.mk ('\x27' :: ((s.data.map (pyEscapeChar '\x27')).flatten ++ ['\x27']))
    = "\x27" ++ s ++ "\x27"
  rw [hmap s.data h]
  apply String.ext
  simp [String.data_append]

theorem instance_name_stem (pn bon bfor : String) (i : Nat) :
    instance_name pn bon bfor i =
      String.intercalate "-" ["snapcraft", pn, "on", bon, "for", bfor]
        ++ "-" ++ Nat.repr i := rfl

theorem takeWhile_append_of_all {p : Char → Bool} (b : Char) (bs : List Char)
    (hb : p b = false) :
    ∀ as : List Char, (∀ a ∈ as, p a = true) → (as ++ b :: bs).takeWhile p = as := by
  intro as
  induction as with
  | nil => intro _; simp [List.takeWhile_cons, hb]
  | cons x xs ih =>
    intro h
    have hx : p x = true := h x (List.mem_cons_self x xs)
    simp only [List.cons_append, List.takeWhile_cons, hx, if_true]
    rw [ih (fun a ha => h a (List.mem_cons_of_mem x ha))]

theorem instance_name_inj_ino (pn1 bon1 bfor1 : String) (i1 : Nat)
    (pn2 bon2 bfor2 : String) (i2 : Nat) (hne : i1 ≠ i2) :
    instance_name pn1 bon1 bfor1 i1 ≠ instance_name pn2 bon2 bfor2 i2 := by
  intro heq
  apply hne
  apply natRepr_inj
  rw [instance_name_stem, instance_name_stem] at heq
  have hdata := congrArg String.data heq
  simp only [String.data_append] at hdata
  have hrev := congrArg List.reverse hdata
  simp only [List.reverse_append] at hrev
  simp only [List.reverse_cons, List.reverse_nil, List.nil_append,
    List.singleton_append] at hrev
  have hdig : ('-' : Char).isDigit = false := by decide
  have e1 : ((Nat.repr i1).data.reverse ++ '-' ::
      (String.intercalate "-"
        ["snapcraft", pn1, "on", bon1, "for", bfor1]).data.reverse).takeWhile
        Char.isDigit = (Nat.repr i1).data.reverse := by
    apply takeWhile_append_of_all _ _ hdig
    intro a ha
    exact natRepr_all_digits i1 a (List.mem_reverse.mp ha)
  have e2 : ((Nat.repr i2).data.reverse ++ '-' ::
      (String.intercalate "-"
        ["snapcraft", pn2, "on", bon2, "for", bfor2]).data.reverse).takeWhile
        Char.isDigit = (Nat.repr i2).data.reverse := by
    apply takeWhile_append_of_all _ _ hdig
    intro a ha
    exact natRepr_all_digits i2 a (List.mem_reverse.mp ha)
  have hrr : (Nat.repr i1).data.reverse = (Nat.repr i2).data.reverse := by
    rw [← e1, ← e2, hrev]
  have hdd : (Nat.repr i1).data = (Nat.repr i2).data := by
    have := congrArg List.reverse hrr
    simpa using this
  exact String.ext hdd

theorem setEnv_apply (m : EnvMap) (k : String) (v : Option String) (q : String) :
    setEnv m k v q = if q = k then some v else m q := rfl

theorem passStep_apply (host : String → Option String) (e : EnvMap) (k q : String) :
    passStep host e k q =
      if q = k ∧ (host k).isSome then some (host k) else e q := by
  cases hh : host k with
  | none => simp [passStep, hh]
  | some v =>
    by_cases hq : q = k
    · simp [passStep, hh, hq, setEnv]
    · simp [passStep, hh, hq, setEnv]

theorem pass_foldl_apply (host : String → Option String) (l : List String)
    (e : EnvMap) (q : String) :
    (l.foldl (passStep host) e) q
      = if q ∈ l ∧ (host q).isSome then some (host q) else e q := by
  induction l generalizing e with
  | nil => simp
  | cons k t ih =>
    simp only [List.foldl_cons, List.mem_cons]
    rw [ih]
    by_cases hq : q = k
    · subst hq
      cases hh : host q with
      | none => simp [hh, passStep_apply]
      | some v =>
        by_cases hm : q ∈ t
        · simp [hm, hh]
        · simp [hm, hh, passStep_apply]
    · by_cases hm : q ∈ t
      · simp [hm, hq, passStep_apply]
      · simp [hm, hq, passStep_apply]

theorem gce_apply (default_env : EnvMap) (os_environ : String → Option String)
    (http_proxy https_proxy : Option String) (q : String) :
    get_command_environment default_env os_environ http_proxy https_proxy q =
      if truthyStr https_proxy = true ∧ q = "https_proxy" then some https_proxy
      else if truthyStr http_proxy = true ∧ q = "http_proxy" then some http_proxy
      else if q ∈ passthrough_keys ∧ (os_environ q).isSome then some (os_environ q)
      else if q = "SNAPCRAFT_MANAGED_MODE" then some (some "1")
      else default_env q := by
  simp only [get_command_environment, ite_apply, setEnv_apply, pass_foldl_apply]
  by_cases h1 : truthyStr http_proxy = true <;>
    by_cases h2 : truthyStr https_proxy = true <;>
      simp only [h1, h2, if_true, if_false, true_and, false_and,
        Bool.false_eq_true, ite_false, ite_true]

theorem runTrace_nonLifecycle (name : String) (s : EnvState) :
    ∀ tr : List Call, (∀ c ∈ tr, nonLifecycle c = true) → runTrace name s tr = s := by
  intro tr
  induction tr generalizing s with
  | nil => intro _; rfl
  | cons c cs ih =>
    intro h
    have hc : nonLifecycle c = true := h c (List.mem_cons_self c cs)
    have hstep : stepCall name s c = s := by
      cases c <;> simp_all [nonLifecycle, stepCall]
    simp only [runTrace, List.foldl_cons, hstep]
    exact ih s (fun c hcc => h c (List.mem_cons_of_mem _ hcc))

/-! Claim theorems. -/

/-- Claim C1: when `is_provider_available()` returns false,
`clean_project_environments` performs zero backend or filesystem calls
(in particular it never calls `create_environment` and never looks up
the instance name), leaves the backend state untouched, and returns
normally without raising — regardless of whether the project path's
inode lookup would succeed. -/
theorem clean_project_environments_unavailable_noop (project_name : String)
    (stat_ino : Option Nat) (build_on build_for : String) (st : BackendState) :
    clean_project_environments false project_name stat_ino build_on build_for st
      = (Except.ok (), [], st) := rfl

/-- Claim C4: for every backend default environment, host environment
(including one defining `SNAPCRAFT_MANAGED_MODE` to another value) and
every combination of proxy arguments, `get_command_environment` maps
`SNAPCRAFT_MANAGED_MODE` to the string `"1"`. -/
theorem get_command_environment_managed_mode (default_env : EnvMap)
    (os_environ : String → Option String) (http_proxy https_proxy : Option String) :
    get_command_environment default_env os_environ http_proxy https_proxy
      "SNAPCRAFT_MANAGED_MODE" = some (some "1") := by
  rw [gce_apply]
  simp [passthrough_keys]

/-- Claim C5 (amended: verbatim mention only without repr escaping):
`is_base_available` returns `(true, none)` exactly on the two literals
`"ubuntu:18.04"` and `"ubuntu:20.04"`; on every other base it returns
`(false, some reason)` where the reason is the fixed non-empty message
embedding the Python `repr` of the base, and mentions the unsupported
base verbatim whenever the base consists of printable ASCII characters
other than the single quote and backslash (no repr escaping needed).
The amendment is forced by the counterexample: repr escaping (e.g. of a
backslash) makes the message differ from any string containing the base
verbatim. -/
theorem is_base_available_spec (base : String) :
    (is_base_available base = (true, none) ↔
      base = "ubuntu:18.04" ∨ base = "ubuntu:20.04") ∧
    (base ≠ "ubuntu:18.04" → base ≠ "ubuntu:20.04" →
      ∃ r, is_base_available base = (false, some r) ∧
        r = "Base " ++ pyReprStr base ++
          " is not supported (must be \x27ubuntu:18.04\x27 or \x27ubuntu:20.04\x27)" ∧
        r ≠ "" ∧
        ((∀ c ∈ base.data, pyPlainChar c) →
          ∃ a b, r = a ++ base ++ b)) := by
  constructor
  · by_cases h : base ∈ ["ubuntu:18.04", "ubuntu:20.04"]
    · simp only [is_base_available, h, not_true_eq_false, if_false]
      simp only [List.mem_cons, List.mem_singleton, List.not_mem_nil, or_false] at h
      simp [h]
    · simp only [is_base_available, h, not_false_eq_true, if_true]
      simp only [List.mem_cons, List.mem_singleton, List.not_mem_nil, or_false] at h
      constructor
      · intro hcontra
        exact absurd (congrArg Prod.fst hcontra) (by simp)
      · intro hcontra
        exact absurd hcontra h
  · intro h1 h2
    have hmem : base ∉ ["ubuntu:18.04", "ubuntu:20.04"] := by simp [h1, h2]
    refine ⟨_, by simp [is_base_available, hmem], rfl, ?_, ?_⟩
    · intro hcontra
      have := congrArg String.data hcontra
      simp [String.data_append] at this
    · intro hplain
      refine ⟨"Base " ++ "\x27", "\x27" ++
        " is not supported (must be \x27ubuntu:18.04\x27 or \x27ubuntu:20.04\x27)", ?_⟩
      apply String.ext
      simp only [pyReprStr_plain hplain, String.data_append, List.append_assoc]

/-- Witness for C5's amended theorem at the supported base
"ubuntu:18.04" and the unsupported base "ubuntu:16.04", whose characters
all need no repr escaping. -/
theorem is_base_available_spec_witness :
    is_base_available "ubuntu:18.04" = (true, none) ∧
    (∃ r, is_base_available "ubuntu:16.04" = (false, some r) ∧
      r = "Base " ++ pyReprStr "ubuntu:16.04" ++
        " is not supported (must be \x27ubuntu:18.04\x27 or \x27ubuntu:20.04\x27)" ∧
      r ≠ "" ∧
      ((∀ c ∈ ("ubuntu:16.04" : String).data, pyPlainChar c) →
        ∃ a b, r = a ++ "ubuntu:16.04" ++ b)) :=
  ⟨(is_base_available_spec "ubuntu:18.04").1.mpr (Or.inl rfl),
   (is_base_available_spec "ubuntu:16.04").2 (by decide) (by decide)⟩

set_option maxRecDepth 8192 in
/-- Counterexample to C5 as stated: for the unsupported base `a\b`
(one backslash), Python's `{base!r}` doubles the backslash, so the
produced reason `Base \x27a\\\\b\x27 is not supported (must be
\x27ubuntu:18.04\x27 or \x27ubuntu:20.04\x27)` does not mention the base
verbatim: no decomposition of the reason has the base as its middle. -/
theorem is_base_available_escape_counterexample :
    is_base_available "a\\b" =
      (false, some ("Base \x27a\\\\b\x27 is not supported (must be \x27ubuntu:18.04\x27 or \x27ubuntu:20.04\x27)")) ∧
    ¬ ∃ x y : String,
      ("Base \x27a\\\\b\x27 is not supported (must be \x27ubuntu:18.04\x27 or \x27ubuntu:20.04\x27)" : String)
        = x ++ "a\\b" ++ y := by
  constructor
  · decide
  · rintro ⟨x, y, hxy⟩
    have hdata := congrArg String.data hxy
    rw [String.data_append, String.data_append] at hdata
    have hinf : ("a\\b" : String).data <:+:
        ("Base \x27a\\\\b\x27 is not supported (must be \x27ubuntu:18.04\x27 or \x27ubuntu:20.04\x27)" : String).data := by
      refine ⟨x.data, y.data, ?_⟩
      simp only [List.append_assoc]
      simp only [List.append_assoc] at hdata
      exact hdata.symm
    exact absurd hinf (by decide)

/-- Claim C6: for every project name, architectures and a project path
whose inode lookup succeeds with inode `ino`, `get_instance_name`
returns exactly the join of the literal `"snapcraft"`, the project
name, `"on"`, the build-on architecture, `"for"`, the build-for
architecture and the decimal representation of `ino`, separated by
`"-"` (the second conjunct checks that `Nat.repr ino` reads back as the
decimal value `ino`). -/
theorem get_instance_name_join (project_name build_on build_for : String) (ino : Nat) :
    get_instance_name project_name (some ino) build_on build_for =
      Except.ok ("snapcraft" ++ "-" ++ project_name ++ "-" ++ "on" ++ "-" ++ build_on
        ++ "-" ++ "for" ++ "-" ++ build_for ++ "-" ++ Nat.repr ino)
    ∧ decParse (Nat.repr ino).data = ino := by
  constructor
  · show Except.ok (instance_name project_name build_on build_for ino) = _
    congr 1
  · exact decParse_toDigits ino

/-- Claim C7: two calls of `get_instance_name` whose project paths
resolve to distinct inode numbers return different names, even when the
project name and both architecture strings coincide (and in fact for
arbitrary project names and architectures). -/
theorem get_instance_name_distinct_inodes (pn1 bon1 bfor1 : String) (i1 : Nat)
    (pn2 bon2 bfor2 : String) (i2 : Nat) (hne : i1 ≠ i2) :
    get_instance_name pn1 (some i1) bon1 bfor1
      ≠ get_instance_name pn2 (some i2) bon2 bfor2 := by
  intro h
  exact instance_name_inj_ino pn1 bon1 bfor1 i1 pn2 bon2 bfor2 i2 hne
    (by simpa [get_instance_name] using h)

/-- Witness for C7 at a concrete pair of inodes with all other
arguments identical. -/
theorem get_instance_name_distinct_inodes_witness :
    (1 : Nat) ≠ 2 ∧
      get_instance_name "proj" (some 1) "amd64" "arm64"
        ≠ get_instance_name "proj" (some 2) "amd64" "arm64" :=
  ⟨by decide,
   get_instance_name_distinct_inodes "proj" "amd64" "arm64" 1
     "proj" "amd64" "arm64" 2 (by decide)⟩

/-- Claim C2: `clean_project_environments` is idempotent. On an available
provider with the named environment initially existing, the first call
stats the path, obtains the handle, sees it exists and deletes it; the
second call sees `exists() == false` and performs no lifecycle call on
the handle after the existence check; across both calls exactly one
delete is issued, and both calls return normally. -/
theorem clean_project_environments_idempotent (pn bon bfor : String) (ino : Nat)
    (st : BackendState)
    (h : st.envPresent (instance_name pn bon bfor ino) = true) :
    clean_project_environments true pn (some ino) bon bfor st =
      (Except.ok (),
       [Call.statIno, Call.createEnvironment (instance_name pn bon bfor ino),
        Call.existsCheck (instance_name pn bon bfor ino),
        Call.delete (instance_name pn bon bfor ino)],
       (clean_project_environments true pn (some ino) bon bfor st).2.2) ∧
    (clean_project_environments true pn (some ino) bon bfor st).2.2.envPresent
      (instance_name pn bon bfor ino) = false ∧
    clean_project_environments true pn (some ino) bon bfor
        (clean_project_environments true pn (some ino) bon bfor st).2.2 =
      (Except.ok (),
       [Call.statIno, Call.createEnvironment (instance_name pn bon bfor ino),
        Call.existsCheck (instance_name pn bon bfor ino)],
       (clean_project_environments true pn (some ino) bon bfor st).2.2) ∧
    (((clean_project_environments true pn (some ino) bon bfor st).2.1 ++
      (clean_project_environments true pn (some ino) bon bfor
        (clean_project_environments true pn (some ino) bon bfor st).2.2).2.1).filter
          Call.isDelete).length = 1 := by
  simp [clean_project_environments, get_instance_name, h, Call.isDelete]

/-- Witness for C2 at a concrete backend state in which the named
environment exists. -/
theorem clean_project_environments_idempotent_witness :
    (BackendState.mk (fun n => n == instance_name "p" "x" "y" 3)).envPresent
      (instance_name "p" "x" "y" 3) = true ∧
    (List.filter Call.isDelete
      ((clean_project_environments true "p" (some 3) "x" "y"
        (BackendState.mk (fun n => n == instance_name "p" "x" "y" 3))).2.1 ++
      (clean_project_environments true "p" (some 3) "x" "y"
        (clean_project_environments true "p" (some 3) "x" "y"
          (BackendState.mk (fun n => n == instance_name "p" "x" "y" 3))).2.2).2.1)).length
      = 1 :=
  ⟨by simp,
   (clean_project_environments_idempotent "p" "x" "y" 3
     (BackendState.mk (fun n => n == instance_name "p" "x" "y" 3)) (by simp)).2.2.2⟩

/-- Claim C3 (amended: a non-empty explicit proxy argument): when the
`http_proxy` (resp. `https_proxy`) argument is a non-empty string, the
returned mapping binds `http_proxy` (resp. `https_proxy`) to exactly
that argument value, overriding any host value. The amendment excludes
the empty string, which Python's `if http_proxy:` treats as not given;
see the counterexample. -/
theorem get_command_environment_nonempty_proxy_override (default_env : EnvMap)
    (os_environ : String → Option String) (hp hsp : Option String)
    (p pq : String) :
    (hp = some p → p ≠ "" →
      get_command_environment default_env os_environ hp hsp "http_proxy"
        = some (some p)) ∧
    (hsp = some pq → pq ≠ "" →
      get_command_environment default_env os_environ hp hsp "https_proxy"
        = some (some pq)) := by
  constructor
  · intro hhp hne
    subst hhp
    rw [gce_apply]
    have ht : truthyStr (some p) = true := by simp [truthyStr, hne]
    simp [ht]
  · intro hhsp hne
    subst hhsp
    rw [gce_apply]
    have ht : truthyStr (some pq) = true := by simp [truthyStr, hne]
    simp [ht]

/-- Witness for C3's amended theorem: an explicit non-empty `http_proxy`
argument wins over a conflicting host value. -/
theorem get_command_environment_nonempty_proxy_override_witness :
    get_command_environment (fun _ => none)
      (fun k => if k = "http_proxy" then some "http://fromhost" else none)
      (some "http://a") none "http_proxy" = some (some "http://a") :=
  (get_command_environment_nonempty_proxy_override (fun _ => none)
    (fun k => if k = "http_proxy" then some "http://fromhost" else none)
    (some "http://a") none "http://a" "").1 rfl (by decide)

/-- Counterexample to C3 as stated: the explicit argument
`http_proxy = ""` is given, yet the result maps `http_proxy` to the
host's value, not to the argument value `""` — `if http_proxy:` is
false for the empty string, so no override is applied. -/
theorem get_command_environment_empty_string_override_counterexample :
    get_command_environment (fun _ => none)
      (fun k => if k = "http_proxy" then some "http://fromhost" else none)
      (some "") none "http_proxy" = some (some "http://fromhost") ∧
    get_command_environment (fun _ => none)
      (fun k => if k = "http_proxy" then some "http://fromhost" else none)
      (some "") none "http_proxy" ≠ some (some "") := by
  constructor
  · rfl
  · decide

/-- Claim C8: with no explicit proxy override, each key of the fixed
pass-through list is copied from the host exactly when the host defines
it; in particular `no_proxy=foo` is copied through, and `no_proxy` is
absent from the result when neither the host nor the backend default
environment supplies it. -/
theorem get_command_environment_passthrough (default_env : EnvMap)
    (os_environ : String → Option String) :
    (∀ k ∈ passthrough_keys,
      (∀ v, os_environ k = some v →
        get_command_environment default_env os_environ none none k
          = some (some v)) ∧
      (os_environ k = none →
        get_command_environment default_env os_environ none none k
          = default_env k)) ∧
    (os_environ "no_proxy" = some "foo" →
      get_command_environment default_env os_environ none none "no_proxy"
        = some (some "foo")) ∧
    (os_environ "no_proxy" = none → default_env "no_proxy" = none →
      get_command_environment default_env os_environ none none "no_proxy"
        = none) := by
  refine ⟨?_, ?_, ?_⟩
  · intro k hk
    constructor
    · intro v hv
      rw [gce_apply]
      simp [truthyStr, hv, hk]
    · intro hnone
      rw [gce_apply]
      have hkM : k ≠ "SNAPCRAFT_MANAGED_MODE" := by fin_cases hk <;> simp
      simp [truthyStr, hnone, hkM]
  · intro hfoo
    rw [gce_apply]
    simp [truthyStr, hfoo, passthrough_keys]
  · intro h1 h2
    rw [gce_apply]
    simp [truthyStr, h1, h2, passthrough_keys]

/-- Witness for C8: `no_proxy=foo` defined on the host is copied
through, and with an empty host and empty backend default the key is
absent. -/
theorem get_command_environment_passthrough_witness :
    get_command_environment (fun _ => none)
      (fun k => if k = "no_proxy" then some "foo" else none) none none "no_proxy"
      = some (some "foo") ∧
    get_command_environment (fun _ => none) (fun _ => none) none none "no_proxy"
      = none :=
  ⟨(get_command_environment_passthrough (fun _ => none)
      (fun k => if k = "no_proxy" then some "foo" else none)).2.1 (by decide),
   (get_command_environment_passthrough (fun _ => none) (fun _ => none)).2.2
     rfl rfl⟩

/-- Claim C9 (modelled from the spec, `launched_environment` being
abstract in this module): used as a scoped resource, on every body
outcome — normal return or raised exception — the unmount and stop
teardown runs after the body and before the outcome propagates, the
instance ends in the stopped state (never left launched), and no call
of the scope deletes the environment. -/
theorem launched_environment_scoped (name : String) (bind_ssh : Bool)
    (bodyTrace : List Call) (outcome : BodyOutcome)
    (hbody : ∀ c ∈ bodyTrace, nonLifecycle c = true) :
    (launched_environment name bind_ssh bodyTrace outcome).2 = outcome ∧
    (launched_environment name bind_ssh bodyTrace outcome).1 =
      (Call.launch name :: (if bind_ssh then [Call.mountSsh] else []))
        ++ bodyTrace ++ [Call.unmountAll, Call.stop] ∧
    runTrace name EnvState.created
      (launched_environment name bind_ssh bodyTrace outcome).1
      = EnvState.stopped ∧
    (∀ c ∈ (launched_environment name bind_ssh bodyTrace outcome).1,
      Call.isDelete c = false) := by
  have hb : List.foldl (stepCall name) EnvState.launchedState bodyTrace
      = EnvState.launchedState := runTrace_nonLifecycle name _ bodyTrace hbody
  have hnd : ∀ c, nonLifecycle c = true → Call.isDelete c = false := by
    intro c
    cases c <;> simp [nonLifecycle, Call.isDelete]
  refine ⟨rfl, rfl, ?_, ?_⟩
  · cases bind_ssh <;>
      simp [launched_environment, runTrace, List.foldl_append, stepCall, hb]
  · intro c hc
    simp only [launched_environment, List.mem_append, List.mem_cons,
      List.mem_singleton, List.not_mem_nil, or_false] at hc
    rcases hc with ((hc | hc) | hc) | (hc | hc)
    · subst hc; rfl
    · cases bind_ssh <;> simp_all [Call.isDelete]
    · exact hnd c (hbody c hc)
    · subst hc; rfl
    · subst hc; rfl

/-- Witness for C9: a body that raises, with ssh bound; the teardown
still runs, the instance ends stopped and the exception propagates. -/
theorem launched_environment_scoped_witness :
    runTrace "inst" EnvState.created
      (launched_environment "inst" true [Call.execCmd "snapcraft pack"]
        (BodyOutcome.raised "boom")).1 = EnvState.stopped ∧
    (launched_environment "inst" true [Call.execCmd "snapcraft pack"]
        (BodyOutcome.raised "boom")).2 = BodyOutcome.raised "boom" :=
  ⟨(launched_environment_scoped "inst" true [Call.execCmd "snapcraft pack"]
      (BodyOutcome.raised "boom") (by decide)).2.2.1,
   (launched_environment_scoped "inst" true [Call.execCmd "snapcraft pack"]
      (BodyOutcome.raised "boom") (by decide)).1⟩

/-- Claim C10 (amended: absence additionally requires the backend
default environment not to supply the key, as in C8): with an
empty-string `http_proxy` (resp. `https_proxy`) argument no override is
applied — the entry equals the host value when the host defines the
variable, and is absent when neither the host nor the backend default
supplies it. -/
theorem get_command_environment_empty_proxy_no_override (default_env : EnvMap)
    (os_environ : String → Option String) (hp hsp : Option String) :
    (∀ v, os_environ "http_proxy" = some v →
      get_command_environment default_env os_environ (some "") hsp "http_proxy"
        = some (some v)) ∧
    (os_environ "http_proxy" = none → default_env "http_proxy" = none →
      get_command_environment default_env os_environ (some "") hsp "http_proxy"
        = none) ∧
    (∀ v, os_environ "https_proxy" = some v →
      get_command_environment default_env os_environ hp (some "") "https_proxy"
        = some (some v)) ∧
    (os_environ "https_proxy" = none → default_env "https_proxy" = none →
      get_command_environment default_env os_environ hp (some "") "https_proxy"
        = none) := by
  refine ⟨?_, ?_, ?_, ?_⟩
  · intro v hv
    rw [gce_apply]
    simp [truthyStr, hv, passthrough_keys]
  · intro h1 h2
    rw [gce_apply]
    simp [truthyStr, h1, h2, passthrough_keys]
  · intro v hv
    rw [gce_apply]
    simp [truthyStr, hv, passthrough_keys]
  · intro h1 h2
    rw [gce_apply]
    simp [truthyStr, h1, h2, passthrough_keys]

/-- Witness for C10's amended theorem: with an empty-string argument the
host value is kept, and with neither host nor default defining the key
the entry is absent. -/
theorem get_command_environment_empty_proxy_no_override_witness :
    get_command_environment (fun _ => none)
      (fun k => if k = "http_proxy" then some "http://fromhost" else none)
      (some "") none "http_proxy" = some (some "http://fromhost") ∧
    get_command_environment (fun _ => none) (fun _ => none)
      (some "") none "http_proxy" = none :=
  ⟨(get_command_environment_empty_proxy_no_override (fun _ => none)
      (fun k => if k = "http_proxy" then some "http://fromhost" else none)
      none none).1 "http://fromhost" (by decide),
   (get_command_environment_empty_proxy_no_override (fun _ => none)
      (fun _ => none) none none).2.1 rfl rfl⟩

/-- Counterexample to C10 as stated: when the backend default
environment itself supplies `http_proxy` and the host does not, the
entry is present (with the default's value), not absent as the claim's
"absent otherwise" requires. -/
theorem get_command_environment_empty_proxy_default_counterexample :
    get_command_environment
      (fun k => if k = "http_proxy" then some (some "http://fromdefault") else none)
      (fun _ => none) (some "") none "http_proxy"
      = some (some "http://fromdefault") ∧
    get_command_environment
      (fun k => if k = "http_proxy" then some (some "http://fromdefault") else none)
      (fun _ => none) (some "") none "http_proxy" ≠ none := by
  constructor
  · rfl
  · decide

end SnapcraftProvider
